import Mathlib

set_option maxRecDepth 8192

/-!
Verification of the humanizer-gm maintenance scripts.

Part 1 embeds `electron/archive-server/scripts/cleanup-junk-embeddings.py`
(the Noise Classifier and Index Pruner): the junk-pattern classification,
the batched rowid resolution, and the shadow-table delete/commit sequence,
modelled as an explicit SQLite-connection state machine (committed state
vs. uncommitted in-transaction state).

Part 2 embeds `scripts/backfill-image-embeddings.py` (the Resumable
Embedding Populator): candidate selection, the per-item
embed/validate/insert/commit loop with its exception handling, and the
pre-flight service probe.

Part 3 embeds `scripts/direct-image-analysis.py`: the vetted vision-model
selection.

Python sets are modelled as `Finset`; iteration over a set (Python
`list(s)`) is modelled as sorting the `Finset`, fixing one of the
unspecified orders. SQLite rows are modelled as lists of records; an
uncommitted transaction is the `pending` component of a connection state,
made durable only by an explicit `commit`.
-/

/-! ### Part 1: cleanup-junk-embeddings.py -/

/-- A row of the primary `messages` table: `id`, `role`, `content`. -/
structure Message where
  id : String
  role : String
  content : String
deriving DecidableEq, Repr

/-- SQLite `LIKE '%pat%'`: substring match, ASCII case-insensitive
(SQLite's default LIKE semantics). -/
def sqlLikeContains (s pat : String) : Bool :=
  decide (pat.toLower.data <:+: s.toLower.data)

/-- SQLite `LIKE 'pat%'`: the string starts with `pat`, ASCII
case-insensitive. -/
def sqlLikeStartsWith (s pat : String) : Bool :=
  s.toLower.startsWith pat.toLower

/-- The junk patterns of the cleanup script (lines 37-48), each a named
predicate over a `messages` row, in source order.  `\x7b` is the `{`
character of the JSON-content patterns. -/
def patterns : List (String × (Message → Bool)) :=
  [ ("Tool role messages", fun m => m.role == "tool"),
    ("Very short (<30 chars)", fun m => m.content.length < 30),
    ("<<ImageDisplayed>> placeholders", fun m => sqlLikeContains m.content "<<ImageDisplay"),
    ("Error tracebacks", fun m => sqlLikeContains m.content "Traceback"),
    ("click()/mclick() commands", fun m =>
      sqlLikeStartsWith m.content "click(" || sqlLikeStartsWith m.content "mclick("),
    ("scroll() commands", fun m => sqlLikeStartsWith m.content "scroll("),
    ("search() calls", fun m => sqlLikeStartsWith m.content "search(\""),
    ("JSON object content", fun m =>
      sqlLikeStartsWith m.content "\x7b\"query\":" || sqlLikeStartsWith m.content "\x7b\"type\":"),
    ("Short error messages", fun m =>
      sqlLikeStartsWith m.content "Error " && m.content.length < 200),
    ("Fetch/timeout errors", fun m =>
      sqlLikeContains m.content "Failed to fetch" || sqlLikeContains m.content "Timeout fetching") ]

/-- `SELECT id FROM messages WHERE <condition>`: the identifiers of the
rows matching one predicate, evaluated over the full message set. -/
def matchIds (msgs : List Message) (p : Message → Bool) : Finset String :=
  ((msgs.filter p).map Message.id).toFinset

/-- The `junk_message_ids` set after the pattern loop (lines 69-80): each
pattern queries the full `messages` table and its matching ids are added
to one accumulating set. -/
def junkMessageIds (msgs : List Message) : Finset String :=
  patterns.foldl (fun acc pr => acc ∪ matchIds msgs pr.2) ∅

/-- The reported `UNIQUE JUNK MESSAGES` count (line 83). -/
def uniqueJunkCount (msgs : List Message) : Nat :=
  (junkMessageIds msgs).card

/-- Spec-side definition for the union claim: the list of per-predicate
match sets, each computed independently over the full message set. -/
def perPatternMatchSets (msgs : List Message) : List (Finset String) :=
  patterns.map (fun pr => matchIds msgs pr.2)

/-- Spec-side definition: the set union of a list of finite sets. -/
def unionOfSets (l : List (Finset String)) : Finset String :=
  l.foldr (· ∪ ·) ∅

/-- `batch_size = 500` (line 91): the bound on the `IN`-clause size. -/
def sqlBatchSize : Nat := 500

/-- The batch slicing `junk_list[i:i+batch_size]` for
`i in range(0, len(junk_list), batch_size)` (lines 93-94): successive
slices of at most `sqlBatchSize` elements. -/
def batchSlices {α : Type} (l : List α) : List (List α) :=
  match l with
  | [] => []
  | x :: xs => ((x :: xs).take sqlBatchSize) :: batchSlices ((x :: xs).drop sqlBatchSize)
termination_by l.length
decreasing_by
  simp only [sqlBatchSize, List.length_drop, List.length_cons]
  omega

/-- A row of the `vec_messages_metadatatext01` shadow table: its `rowid`
and its `data` column, which stores the message id. -/
structure MetaTextRow where
  rowid : Nat
  data : String
deriving DecidableEq, Repr

/-- `SELECT rowid FROM vec_messages_metadatatext01 WHERE data IN (ids)`:
the rowids whose `data` is among the given identifiers. -/
def resolveRowids (table : List MetaTextRow) (ids : List String) : Finset Nat :=
  ((table.filter (fun r => decide (r.data ∈ ids))).map MetaTextRow.rowid).toFinset

/-- The batched resolution loop (lines 93-102): resolve each slice of at
most 500 identifiers and accumulate the rowids into one set. -/
def batchedResolveRowids (table : List MetaTextRow) (ids : List String) : Finset Nat :=
  (batchSlices ids).foldl (fun acc b => acc ∪ resolveRowids table b) ∅

/-- The nine shadow tables of the `vec_messages` index (lines 51-61). -/
def SHADOW_TABLES : List String :=
  [ "vec_messages_rowids",
    "vec_messages_chunks",
    "vec_messages_vector_chunks00",
    "vec_messages_metadatachunks00",
    "vec_messages_metadatachunks01",
    "vec_messages_metadatachunks02",
    "vec_messages_metadatatext00",
    "vec_messages_metadatatext01",
    "vec_messages_metadatatext02" ]

/-- A SQL statement issued on the connection by the delete phase: either a
batched `DELETE FROM <table> WHERE rowid IN (batch)` or `conn.commit()`. -/
inductive SqlOp where
  | deleteBatch (table : String) (batch : List Nat)
  | commit
deriving DecidableEq, Repr

/-- The SQLite connection: the durable (committed) rows of each shadow
table, keyed by table name and holding the rowids present, and the
connection's own uncommitted view (`pending`). `conn.commit()` makes the
pending view durable; until then the durable state is unchanged. -/
structure ConnState where
  committed : String → List Nat
  pending : String → List Nat

/-- Effect of one SQL statement on the connection. A `DELETE` removes the
matching rowids from the uncommitted view of its table only; `commit`
makes the whole uncommitted view durable. -/
def applySqlOp (s : ConnState) : SqlOp → ConnState
  | .deleteBatch t batch =>
      { s with pending := fun u =>
          if u = t then (s.pending u).filter (fun r => !(decide (r ∈ batch))) else s.pending u }
  | .commit => { s with committed := s.pending }

/-- Run a list of SQL statements in order. -/
def runSqlOps (s : ConnState) (ops : List SqlOp) : ConnState :=
  ops.foldl applySqlOp s

/-- The inner batch loop for one table (lines 114-118): one `DELETE`
statement per slice of at most 500 rowids. -/
def deleteOpsForTable (t : String) (rowidList : List Nat) : List SqlOp :=
  (batchSlices rowidList).map (SqlOp.deleteBatch t)

/-- The rowids resolved for deletion by the script: the junk message ids
(as `list(junk_message_ids)`, modelled by sorting the set), resolved in
batches through `vec_messages_metadatatext01`. -/
def resolvedRowids (msgs : List Message) (metaText : List MetaTextRow) : Finset Nat :=
  batchedResolveRowids metaText ((junkMessageIds msgs).sort (· ≤ ·))

/-- The SQL statements the script issues after resolution (lines 106-121):
in execute mode with a nonempty resolved set, the per-table batched
deletes over all nine shadow tables followed by one `conn.commit()`;
otherwise (preview mode, or nothing resolved) no statement at all. -/
def prunerOps (msgs : List Message) (metaText : List MetaTextRow) (execute : Bool) : List SqlOp :=
  let rowids := resolvedRowids msgs metaText
  let rowidList := rowids.sort (· ≤ ·)
  if execute = true ∧ rowids ≠ ∅ then
    (SHADOW_TABLES.map (fun t => deleteOpsForTable t rowidList)).flatten ++ [SqlOp.commit]
  else []

/-- Run the pruner's delete phase from an initial connection state. -/
def prunerRun (msgs : List Message) (metaText : List MetaTextRow) (execute : Bool)
    (s : ConnState) : ConnState :=
  runSqlOps s (prunerOps msgs metaText execute)

/-- The durable states reached strictly after the start, one per `commit`
in the statement list. -/
def committedAfter : ConnState → List SqlOp → List (String → List Nat)
  | _, [] => []
  | s, op :: rest =>
    let s2 := applySqlOp s op
    (match op with
     | .commit => [s2.committed]
     | _ => []) ++ committedAfter s2 rest

/-- Every durable state over a run: the initial durable state, then the
state after each commit. -/
def committedStates (s : ConnState) (ops : List SqlOp) : List (String → List Nat) :=
  s.committed :: committedAfter s ops

/-- Whether a SQL statement is a commit. -/
def isCommitOp : SqlOp → Bool
  | .commit => true
  | _ => false

/-- Number of `commit` statements in a statement list. -/
def commitCount (ops : List SqlOp) : Nat :=
  ops.countP isCommitOp

/-- The cleanup script's live count, `SELECT COUNT(*) FROM
vec_messages_rowids` (lines 32-33 and 124-125), read through the
connection (it sees the uncommitted view). -/
def liveRowidCount (s : ConnState) : Nat :=
  (s.pending "vec_messages_rowids").length

/-! ### Part 2: backfill-image-embeddings.py -/

/-- `EMBEDDING_MODEL = "nomic-embed-text"` (line 29). -/
def EMBEDDING_MODEL : String := "nomic-embed-text"

/-- `EMBEDDING_DIM = 768` (line 30). -/
def EMBEDDING_DIM : Nat := 768

/-- A row of the `image_analysis` table as the selection query reads it:
`id`, `description` (nullable), `source`. -/
structure ImageAnalysis where
  id : String
  description : Option String
  source : String
deriving DecidableEq, Repr

/-- A row of the relational `image_description_embeddings` table, reduced
to the column the left join inspects (`image_analysis_id`); the embedding
payload, model and timestamp columns do not influence selection. -/
structure EmbeddingRow where
  image_analysis_id : String
deriving DecidableEq, Repr

/-- The store as the backfill script sees it: the `image_analysis` rows
and the existing `image_description_embeddings` rows. -/
structure BackfillDB where
  image_analysis : List ImageAnalysis
  image_description_embeddings : List EmbeddingRow
deriving Repr

/-- A selected candidate, as the row dict built on lines 74-77. -/
structure Candidate where
  id : String
  description : String
  source : String
deriving DecidableEq, Repr

/-- The eligibility condition of the selection query (lines 64-72):
`description IS NOT NULL AND description != ''` and the left join found
no `image_description_embeddings` row for this `image_analysis` id. -/
def eligible (db : BackfillDB) (ia : ImageAnalysis) : Bool :=
  (match ia.description with
   | none => false
   | some d => d != "") &&
  !(db.image_description_embeddings.any (fun e => e.image_analysis_id == ia.id))

/-- `get_descriptions_without_embeddings` (lines 62-77): the eligible
rows, truncated by `LIMIT ?`. -/
def get_descriptions_without_embeddings (db : BackfillDB) (limit : Nat) : List Candidate :=
  ((db.image_analysis.filter (eligible db)).take limit).map
    (fun ia => { id := ia.id, description := ia.description.getD "", source := ia.source })

/-- The limit computed in `main` (line 186):
`limit = batch_size if batch_size > 0 else 10000`. -/
def mainLimit (batchSize : Nat) : Nat :=
  if batchSize > 0 then batchSize else 10000

/-- The model pre-flight check on lines 170-173: the run aborts when the
installed-model list contains neither `EMBEDDING_MODEL` verbatim nor
`EMBEDDING_MODEL ++ ":latest"`. -/
def modelCheckFails (models : List String) : Bool :=
  !(models.contains EMBEDDING_MODEL) && !(models.contains (EMBEDDING_MODEL ++ ":latest"))

/-- Embedding vectors: float values are abstracted to opaque integer
scalars (no claim depends on their arithmetic); the length is the
dimensionality the script validates. -/
abbrev EmbVec : Type := List Int

/-- A write staged inside the connection's open transaction by
`insert_description_embedding`: the relational
`image_description_embeddings` insert or the `vec_image_descriptions`
shadow-index insert, carrying the candidate and its vector. -/
inductive TxWrite where
  | rel (c : Candidate) (vec : EmbVec)
  | vecIdx (c : Candidate) (vec : EmbVec)
deriving DecidableEq, Repr

/-- The connection during the processing loop: durable writes and the
writes staged in the open transaction. -/
structure TxState where
  committed : List TxWrite
  pending : List TxWrite
deriving DecidableEq, Repr

/-- `conn.commit()`: staged writes become durable. -/
def commitTx (s : TxState) : TxState :=
  { committed := s.committed ++ s.pending, pending := [] }

/-- How the two inserts of `insert_description_embedding` (lines 80-120)
turn out for one candidate, as driven by the environment:
`insert1Raise` — the relational insert raises; `noSuchTable` — the
shadow-index insert raises `OperationalError` with "no such table"
(swallowed with a warning, line 116-118); `insert2Raise` — the
shadow-index insert raises some other `OperationalError` (re-raised,
line 120); `bothOk` — both inserts succeed. -/
inductive InsertOutcome where
  | insert1Raise
  | noSuchTable
  | insert2Raise
  | bothOk
deriving DecidableEq, Repr

/-- What the environment does for one candidate: `embed_text` raises
(network failure or malformed/empty response), or it returns a vector,
after which the inserts play out as given. -/
inductive ItemEvent where
  | embedRaise
  | embedOk (vec : EmbVec) (ins : InsertOutcome)
deriving DecidableEq, Repr

/-- `insert_description_embedding` acting on the open transaction.
A raising `execute` stages nothing itself; whatever was already staged
stays staged (SQLite rolls back only the failed statement, and the caller
issues no `ROLLBACK`). Returns the new state and whether an exception
propagated to the caller. -/
def insert_description_embedding (s : TxState) (c : Candidate) (vec : EmbVec) :
    InsertOutcome → TxState × Bool
  | .insert1Raise => (s, true)
  | .noSuchTable => ({ s with pending := s.pending ++ [TxWrite.rel c vec] }, false)
  | .insert2Raise => ({ s with pending := s.pending ++ [TxWrite.rel c vec] }, true)
  | .bothOk => ({ s with pending := s.pending ++ [TxWrite.rel c vec, TxWrite.vecIdx c vec] }, false)

/-- One iteration of the processing loop (lines 201-230): embed, validate
the dimension (line 210-211), insert, and `conn.commit()` on success; any
exception is caught by the `except` clause (lines 225-227), which counts
an error and does not roll back. Returns the new connection state and
whether this item was counted as an error. -/
def processItem (s : TxState) (c : Candidate) : ItemEvent → TxState × Bool
  | .embedRaise => (s, true)
  | .embedOk vec ins =>
    if vec.length ≠ EMBEDDING_DIM then (s, true)
    else
      match insert_description_embedding s c vec ins with
      | (s2, true) => (s2, true)
      | (s2, false) => (commitTx s2, false)

/-- The whole processing loop: fold `processItem` over the candidates in
selection order, counting processed items and errors (lines 198-227). -/
def runLoop (s : TxState) : List (Candidate × ItemEvent) → TxState × Nat × Nat
  | [] => (s, 0, 0)
  | (c, ev) :: rest =>
    match processItem s c ev with
    | (s2, true) =>
      let r := runLoop s2 rest
      (r.1, r.2.1, r.2.2 + 1)
    | (s2, false) =>
      let r := runLoop s2 rest
      (r.1, r.2.1 + 1, r.2.2)

/-- Whether one candidate's event is counted as an error; visible from
the event alone (the connection state never decides it). -/
def itemFails : Candidate × ItemEvent → Bool
  | (_, .embedRaise) => true
  | (_, .embedOk vec ins) =>
    if vec.length ≠ EMBEDDING_DIM then true
    else
      match ins with
      | .insert1Raise => true
      | .insert2Raise => true
      | _ => false

/-- Outcome of the pre-flight probe of `GET /api/tags` (lines 161-177):
the request raised (service unreachable) or returned the installed-model
names. -/
inductive ProbeOutcome where
  | raised
  | tags (models : List String)
deriving DecidableEq, Repr

/-- Observable result of one `main()` run of the backfill script:
the process exit status, whether the store connection was ever opened,
the final connection state, and the processed/error counts of the final
summary. -/
structure RunResult where
  exitCode : Nat
  dbOpened : Bool
  final : TxState
  processed : Nat
  errors : Nat
deriving DecidableEq, Repr

/-- `main()` of the backfill script (lines 147-249). Both pre-flight
failure paths (lines 171-177) are plain `return` statements: the
interpreter then terminates normally, so the process exit status is 0 on
every path; no `sys.exit` call exists in the script. On probe failure
the `return` happens before `sqlite3.connect` (line 180), so the store
is never touched. The per-candidate environment behaviour is supplied as
`events`, paired positionally with the selected candidates. -/
def backfillMain (probe : ProbeOutcome) (db : BackfillDB) (batchSize : Nat)
    (events : List ItemEvent) : RunResult :=
  match probe with
  | .raised => { exitCode := 0, dbOpened := false, final := ⟨[], []⟩, processed := 0, errors := 0 }
  | .tags models =>
    if modelCheckFails models then
      { exitCode := 0, dbOpened := false, final := ⟨[], []⟩, processed := 0, errors := 0 }
    else
      let cands := get_descriptions_without_embeddings db (mainLimit batchSize)
      let r := runLoop ⟨[], []⟩ (cands.zip events)
      { exitCode := 0, dbOpened := true, final := r.1, processed := r.2.1, errors := r.2.2 }

/-- Whether the pre-flight probe fails (service unreachable or required
model not installed). -/
def probeFails : ProbeOutcome → Bool
  | .raised => true
  | .tags models => modelCheckFails models

/-! ### Part 3: direct-image-analysis.py -/

/-- The vetted Ollama vision models (lines 39-47). -/
def VETTED_OLLAMA_MODELS : List String :=
  [ "qwen3-vl:8b",
    "qwen2-vl:7b",
    "llava:13b",
    "llava:7b",
    "llava:34b",
    "llama3.2-vision:11b",
    "minicpm-v:8b" ]

/-- `DEFAULT_MODEL = 'qwen3-vl:8b'` (line 50). -/
def DEFAULT_MODEL : String := "qwen3-vl:8b"

/-- Outcome of the `GET /api/tags` lookup inside `get_vision_model`: a
`URLError` (caught, lines 79-80) or the installed-model names. -/
inductive TagsProbe where
  | urlError
  | tags (installed : List String)
deriving DecidableEq, Repr

/-- The model after the allow-list vetting step (lines 55-60): the
`VISION_MODEL` override if it is vetted, else `DEFAULT_MODEL`. -/
def vettedChoice (envOverride : Option String) : String :=
  let model := envOverride.getD DEFAULT_MODEL
  if VETTED_OLLAMA_MODELS.contains model then model else DEFAULT_MODEL

/-- `get_vision_model` (lines 53-82): vet the override, then verify the
choice is installed; if not, substitute the first installed vetted model,
and if none is installed raise `RuntimeError` (modelled as `Except.error`).
A `URLError` on the tags request only logs a warning and the vetted choice
is returned unverified. The second component collects the log lines
printed (abbreviated to their identifying text). -/
def get_vision_model (envOverride : Option String) (probe : TagsProbe) :
    Except String String × List String :=
  let model0 := envOverride.getD DEFAULT_MODEL
  let vetLog :=
    if VETTED_OLLAMA_MODELS.contains model0 then []
    else ["WARNING: " ++ model0 ++ " not in vetted list. Using " ++ DEFAULT_MODEL]
  let model := vettedChoice envOverride
  match probe with
  | .urlError => (Except.ok model, vetLog ++ ["WARNING: Could not verify Ollama models"])
  | .tags installed =>
    if installed.contains model then (Except.ok model, vetLog)
    else
      match VETTED_OLLAMA_MODELS.find? (fun alt => installed.contains alt) with
      | some alt =>
        (Except.ok alt,
         vetLog ++ ["WARNING: " ++ model ++ " not installed. Checking alternatives...",
                    "Using installed model: " ++ alt])
      | none =>
        (Except.error ("No vetted vision model installed. Install with: ollama pull " ++ DEFAULT_MODEL),
         vetLog ++ ["WARNING: " ++ model ++ " not installed. Checking alternatives..."])

/-! ### Concrete fixtures used by counterexamples and witnesses -/

/-- A candidate used in concrete runs. -/
def candA : Candidate := { id := "A", description := "a red chair", source := "chatgpt" }

/-- A second candidate used in concrete runs. -/
def candB : Candidate := { id := "B", description := "a blue chair", source := "chatgpt" }

/-- A well-formed 768-dimensional vector. -/
def vec768 : EmbVec := List.replicate 768 0

/-- A store with 10001 eligible `image_analysis` rows and no embeddings. -/
def bigDB : BackfillDB :=
  { image_analysis := List.replicate 10001 { id := "a", description := some "d", source := "s" },
    image_description_embeddings := [] }

/-! ### Helper lemmas -/

/-- Membership in a left fold of set unions. -/
theorem mem_foldl_union {α β : Type} [DecidableEq β] (f : α → Finset β) (l : List α)
    (s : Finset β) (x : β) :
    x ∈ l.foldl (fun acc a => acc ∪ f a) s ↔ x ∈ s ∨ ∃ a ∈ l, x ∈ f a := by
  induction l generalizing s with
  | nil => simp
  | cons a l ih =>
    simp only [List.foldl_cons, ih, Finset.mem_union, List.mem_cons]
    constructor
    · rintro ((h | h) | ⟨a2, h1, h2⟩)
      · exact Or.inl h
      · exact Or.inr ⟨a, Or.inl rfl, h⟩
      · exact Or.inr ⟨a2, Or.inr h1, h2⟩
    · rintro (h | ⟨a2, (rfl | h1), h2⟩)
      · exact Or.inl (Or.inl h)
      · exact Or.inl (Or.inr h2)
      · exact Or.inr ⟨a2, h1, h2⟩

/-- A left fold of set unions equals the seed joined with the right fold
of the mapped sets. -/
theorem foldl_union_eq_foldr {α β : Type} [DecidableEq β] (f : α → Finset β) (l : List α)
    (s : Finset β) :
    l.foldl (fun acc a => acc ∪ f a) s = s ∪ (l.map f).foldr (· ∪ ·) ∅ := by
  induction l generalizing s with
  | nil => simp
  | cons a l ih =>
    simp only [List.foldl_cons, List.map_cons, List.foldr_cons, ih, Finset.union_assoc]

/-- Concatenating the batch slices gives back the original list. -/
theorem batchSlices_flatten {α : Type} (l : List α) : (batchSlices l).flatten = l := by
  induction l using batchSlices.induct with
  | case1 => simp [batchSlices]
  | case2 x xs ih =>
    rw [batchSlices]
    simp only [List.flatten_cons, ih, List.take_append_drop]

/-- Every batch slice respects the 500-element bound. -/
theorem batchSlices_length_le {α : Type} (l : List α) :
    ∀ b ∈ batchSlices l, b.length ≤ sqlBatchSize := by
  induction l using batchSlices.induct with
  | case1 => simp [batchSlices]
  | case2 x xs ih =>
    rw [batchSlices]
    intro b hb
    rcases List.mem_cons.mp hb with rfl | hb
    · simp [List.length_take]
    · exact ih b hb

/-- Membership characterisation of a single unbatched rowid lookup. -/
theorem mem_resolveRowids (table : List MetaTextRow) (ids : List String) (x : Nat) :
    x ∈ resolveRowids table ids ↔ ∃ r ∈ table, r.data ∈ ids ∧ r.rowid = x := by
  simp only [resolveRowids, List.mem_toFinset, List.mem_map, List.mem_filter,
    decide_eq_true_eq]
  constructor
  · rintro ⟨r, ⟨hr, hd⟩, hx⟩
    exact ⟨r, hr, hd, hx⟩
  · rintro ⟨r, hr, hd, hx⟩
    exact ⟨r, ⟨hr, hd⟩, hx⟩

/-- Running an appended statement list runs the pieces in order. -/
theorem runSqlOps_append (s : ConnState) (a b : List SqlOp) :
    runSqlOps s (a ++ b) = runSqlOps (runSqlOps s a) b := by
  simp [runSqlOps, List.foldl_append]

/-- Statements that are not commits leave the durable state alone. -/
theorem runSqlOps_committed_of_no_commit (s : ConnState) (ops : List SqlOp)
    (h : ∀ op ∈ ops, isCommitOp op = false) :
    (runSqlOps s ops).committed = s.committed := by
  induction ops generalizing s with
  | nil => rfl
  | cons op rest ih =>
    cases op with
    | deleteBatch t batch =>
      rw [runSqlOps, List.foldl_cons, ← runSqlOps]
      rw [ih _ (fun o ho => h o (List.mem_cons_of_mem _ ho))]
      rfl
    | commit =>
      exact absurd (h _ (List.mem_cons_self _ _)) (by simp [isCommitOp])

/-- The uncommitted view of one batched `DELETE`. -/
theorem applySqlOp_deleteBatch_pending (s : ConnState) (t : String) (b : List Nat) (u : String) :
    (applySqlOp s (SqlOp.deleteBatch t b)).pending u =
      if u = t then (s.pending u).filter (fun r => !(decide (r ∈ b))) else s.pending u := rfl

/-- Effect on the uncommitted view of the batched deletes of one table:
precisely the rowids of the concatenated batches disappear from that
table, and no other table changes. -/
theorem mem_pending_deleteBatches (s : ConnState) (t : String) (bs : List (List Nat))
    (u : String) (x : Nat) :
    x ∈ (runSqlOps s (bs.map (SqlOp.deleteBatch t))).pending u ↔
      x ∈ s.pending u ∧ (u = t → x ∉ bs.flatten) := by
  induction bs generalizing s with
  | nil => simp [runSqlOps]
  | cons b bs ih =>
    rw [List.map_cons, runSqlOps, List.foldl_cons, ← runSqlOps, ih]
    by_cases hu : u = t
    · subst hu
      rw [applySqlOp_deleteBatch_pending, if_pos rfl, List.mem_filter]
      simp only [List.flatten_cons, List.mem_append, Bool.not_eq_true', decide_eq_false_iff_not,
        eq_self_iff_true, true_implies]
      tauto
    · rw [applySqlOp_deleteBatch_pending, if_neg hu]
      have hiff : (u = t) ↔ False := iff_false_intro hu
      simp only [hiff, false_implies, and_true]

/-- The batched deletes issued for one table contain no commit. -/
theorem deleteOpsForTable_no_commit (t : String) (rl : List Nat) :
    ∀ op ∈ deleteOpsForTable t rl, isCommitOp op = false := by
  intro op hop
  rcases List.mem_map.mp hop with ⟨b, _, rfl⟩
  rfl

/-- The per-table delete phase over a list of table names contains no
commit. -/
theorem deletePhase_no_commit (ts : List String) (rl : List Nat) :
    ∀ op ∈ (ts.map (fun t => deleteOpsForTable t rl)).flatten, isCommitOp op = false := by
  intro op hop
  rcases List.mem_flatten.mp hop with ⟨ops, hops, hmem⟩
  rcases List.mem_map.mp hops with ⟨t, _, rfl⟩
  exact deleteOpsForTable_no_commit t rl op hmem

/-- Effect on the uncommitted view of the whole delete phase: a rowid of
the resolved list disappears from every table in the list, and tables
outside the list are untouched. -/
theorem mem_pending_deletePhase (s : ConnState) (ts : List String) (rl : List Nat)
    (u : String) (x : Nat) :
    x ∈ (runSqlOps s ((ts.map (fun t => deleteOpsForTable t rl)).flatten)).pending u ↔
      x ∈ s.pending u ∧ (u ∈ ts → x ∉ rl) := by
  induction ts generalizing s with
  | nil => simp [runSqlOps]
  | cons t ts ih =>
    rw [List.map_cons, List.flatten_cons, runSqlOps_append, ih]
    rw [deleteOpsForTable, mem_pending_deleteBatches, batchSlices_flatten]
    simp only [List.mem_cons]
    constructor
    · rintro ⟨⟨h1, h2⟩, h3⟩
      refine ⟨h1, ?_⟩
      rintro (rfl | hu)
      · exact h2 rfl
      · exact h3 hu
    · rintro ⟨h1, h2⟩
      exact ⟨⟨h1, fun hu => h2 (Or.inl hu)⟩, fun hu => h2 (Or.inr hu)⟩

/-- Unfolding: running a cons of statements. -/
theorem runSqlOps_cons (s : ConnState) (op : SqlOp) (ops : List SqlOp) :
    runSqlOps s (op :: ops) = runSqlOps (applySqlOp s op) ops := rfl

/-- Unfolding: the durable-state trace past a delete. -/
theorem committedAfter_cons_delete (s : ConnState) (t : String) (b : List Nat)
    (rest : List SqlOp) :
    committedAfter s (SqlOp.deleteBatch t b :: rest) =
      committedAfter (applySqlOp s (SqlOp.deleteBatch t b)) rest := rfl

/-- Unfolding: the durable-state trace past a commit. -/
theorem committedAfter_cons_commit (s : ConnState) (rest : List SqlOp) :
    committedAfter s (SqlOp.commit :: rest) =
      (applySqlOp s SqlOp.commit).committed ::
        committedAfter (applySqlOp s SqlOp.commit) rest := rfl

/-- The durable-state trace over an appended statement list. -/
theorem committedAfter_append (s : ConnState) (a b : List SqlOp) :
    committedAfter s (a ++ b) = committedAfter s a ++ committedAfter (runSqlOps s a) b := by
  induction a generalizing s with
  | nil => simp [committedAfter, runSqlOps]
  | cons op rest ih =>
    cases op with
    | deleteBatch t bb =>
      rw [List.cons_append, committedAfter_cons_delete, ih, committedAfter_cons_delete,
        runSqlOps_cons]
    | commit =>
      rw [List.cons_append, committedAfter_cons_commit, ih, committedAfter_cons_commit,
        runSqlOps_cons, List.cons_append]

/-- A commit-free statement list adds no durable state to the trace. -/
theorem committedAfter_no_commit (s : ConnState) (ops : List SqlOp)
    (h : ∀ op ∈ ops, isCommitOp op = false) :
    committedAfter s ops = [] := by
  induction ops generalizing s with
  | nil => rfl
  | cons op rest ih =>
    cases op with
    | deleteBatch t batch =>
      rw [committedAfter_cons_delete]
      exact ih _ (fun o ho => h o (List.mem_cons_of_mem _ ho))
    | commit =>
      exact absurd (h _ (List.mem_cons_self _ _)) (by simp [isCommitOp])

/-- The error flag of one loop iteration depends only on the item's
event, never on the connection state. -/
theorem processItem_snd (s : TxState) (c : Candidate) (ev : ItemEvent) :
    (processItem s c ev).2 = itemFails (c, ev) := by
  cases ev with
  | embedRaise => rfl
  | embedOk vec ins =>
    by_cases h : vec.length ≠ EMBEDDING_DIM
    · simp [processItem, itemFails, if_pos h]
    · cases ins <;>
        simp [processItem, itemFails, insert_description_embedding, if_neg h]

/-! ### Claim theorems -/

/-- C6: for every Record set, the Noise Classifier evaluates each of its
fixed, ordered predicates independently over the full Record set, and its
reported unique-junk count equals the cardinality of the union of the
per-predicate match sets, so a Record matching several predicates is
counted once: the accumulated `junk_message_ids` set equals the union of
the per-predicate match sets (each computed over the full message set), an
id is junk exactly when some pattern matches some message carrying it, and
the reported unique count is the union's cardinality. -/
theorem noise_classifier_union_count (msgs : List Message) :
    junkMessageIds msgs = unionOfSets (perPatternMatchSets msgs) ∧
    (∀ x, x ∈ junkMessageIds msgs ↔ ∃ pr ∈ patterns, x ∈ matchIds msgs pr.2) ∧
    uniqueJunkCount msgs = (unionOfSets (perPatternMatchSets msgs)).card := by
  have h : junkMessageIds msgs = unionOfSets (perPatternMatchSets msgs) := by
    rw [junkMessageIds, unionOfSets, perPatternMatchSets, foldl_union_eq_foldr]
    simp
  refine ⟨h, ?_, by rw [uniqueJunkCount, h]⟩
  intro x
  rw [junkMessageIds, mem_foldl_union]
  simp

/-- C7: for every set of junk identifiers, the batched resolution
(lookups over identifier batches of at most 500 via the metadata text
column, unioned) returns exactly the same set of row addresses as a
single unbounded lookup over the whole identifier set. -/
theorem batched_resolution_lossless (table : List MetaTextRow) (ids : List String) :
    batchedResolveRowids table ids = resolveRowids table ids ∧
    ∀ b ∈ batchSlices ids, b.length ≤ 500 := by
  refine ⟨?_, batchSlices_length_le ids⟩
  ext x
  rw [batchedResolveRowids, mem_foldl_union, mem_resolveRowids]
  simp only [Finset.not_mem_empty, false_or]
  constructor
  · rintro ⟨b, hb, hx⟩
    rcases (mem_resolveRowids table b x).mp hx with ⟨r, hr, hd, hrx⟩
    refine ⟨r, hr, ?_, hrx⟩
    rw [← batchSlices_flatten ids]
    exact List.mem_flatten.mpr ⟨b, hb, hd⟩
  · rintro ⟨r, hr, hd, hrx⟩
    rw [← batchSlices_flatten ids] at hd
    rcases List.mem_flatten.mp hd with ⟨b, hb, hdb⟩
    exact ⟨b, hb, (mem_resolveRowids table b x).mpr ⟨r, hr, hdb, hrx⟩⟩

/-- C3: for every store state and every set of pattern matches, running
the Pruner without the execute flag performs no deletion in any shadow
table: the run issues no SQL statement at all, the connection state is
unchanged, and the rowid registry's live count after the run equals the
count before it. -/
theorem pruner_dry_run_no_op (msgs : List Message) (metaText : List MetaTextRow)
    (s : ConnState) :
    prunerOps msgs metaText false = [] ∧
    prunerRun msgs metaText false s = s ∧
    liveRowidCount (prunerRun msgs metaText false s) = liveRowidCount s := by
  have h : prunerOps msgs metaText false = [] := by
    rw [prunerOps]
    simp
  refine ⟨h, ?_, ?_⟩ <;> rw [prunerRun, h] <;> rfl

/-- C10: the Populator's pre-flight model check passes exactly when the
installed-model list contains `nomic-embed-text` verbatim or
`nomic-embed-text:latest`; an installed variant with any other tag (for
example `nomic-embed-text:v1.5` alone) still causes the abort. -/
theorem preflight_model_check_exact_or_latest :
    (∀ models : List String, modelCheckFails models = false ↔
      (EMBEDDING_MODEL ∈ models ∨ EMBEDDING_MODEL ++ ":latest" ∈ models)) ∧
    modelCheckFails ["nomic-embed-text:v1.5"] = true := by
  constructor
  · intro models
    have e1 : ((!(models.contains EMBEDDING_MODEL)) = false) ↔ EMBEDDING_MODEL ∈ models := by
      rw [Bool.not_eq_false']
      exact List.elem_iff
    have e2 : ((!(models.contains (EMBEDDING_MODEL ++ ":latest"))) = false) ↔
        EMBEDDING_MODEL ++ ":latest" ∈ models := by
      rw [Bool.not_eq_false']
      exact List.elem_iff
    rw [modelCheckFails, Bool.and_eq_false_iff, e1, e2]
  · decide

/-- C4 (code bug): with batch size 0 the script's own documentation
promises "all pending" with no upper bound, but `main` computes
`limit = 10000` and passes it to the selection query's `LIMIT`: on a
store with 10001 eligible candidates, one pass selects only 10000. -/
theorem backfill_batch0_capped_at_10000 :
    mainLimit 0 = 10000 ∧
    (bigDB.image_analysis.filter (eligible bigDB)).length = 10001 ∧
    (get_descriptions_without_embeddings bigDB (mainLimit 0)).length = 10000 := by
  have hel : eligible bigDB { id := "a", description := some "d", source := "s" } = true := by
    decide
  have hfil : bigDB.image_analysis.filter (eligible bigDB) =
      List.replicate 10001 { id := "a", description := some "d", source := "s" } := by
    rw [show bigDB.image_analysis =
      List.replicate 10001 { id := "a", description := some "d", source := "s" } from rfl]
    rw [List.filter_replicate, if_pos hel]
  refine ⟨rfl, ?_, ?_⟩
  · rw [hfil, List.length_replicate]
  · rw [get_descriptions_without_embeddings, List.length_map, hfil]
    rw [show mainLimit 0 = 10000 from rfl, List.take_replicate, List.length_replicate]
    omega

/-- C5 counterexample: with the service unreachable, the pre-flight probe
fails, yet the process exit status is 0 (`main` just returns; the script
never calls `sys.exit`), contradicting the claimed non-zero exit. -/
theorem backfill_probe_failure_exits_zero :
    (backfillMain ProbeOutcome.raised ⟨[], []⟩ 100 []).exitCode = 0 ∧
    probeFails ProbeOutcome.raised = true := ⟨rfl, rfl⟩

/-- C5 amended: the Populator process exits with status 0 on normal
completion and also on pre-flight probe failure (service unreachable or
required model not installed); in the probe-failure case it still aborts
before opening the store, processing any candidate, or persisting any
write. -/
theorem backfill_exit_always_zero_probe_aborts (probe : ProbeOutcome) (db : BackfillDB)
    (bs : Nat) (events : List ItemEvent) :
    (backfillMain probe db bs events).exitCode = 0 ∧
    (probeFails probe = true →
      (backfillMain probe db bs events).dbOpened = false ∧
      (backfillMain probe db bs events).final = ⟨[], []⟩ ∧
      (backfillMain probe db bs events).processed = 0 ∧
      (backfillMain probe db bs events).errors = 0) := by
  cases probe with
  | raised => exact ⟨rfl, fun _ => ⟨rfl, rfl, rfl, rfl⟩⟩
  | tags models =>
    rcases h : modelCheckFails models with _ | _
    · refine ⟨by simp [backfillMain, h], fun hf => ?_⟩
      have hpf : probeFails (ProbeOutcome.tags models) = false := by
        simp [probeFails, h]
      rw [hpf] at hf
      cases hf
    · refine ⟨by simp [backfillMain, h], fun hf => ?_⟩
      refine ⟨?_, ?_, ?_, ?_⟩ <;> simp [backfillMain, h]

/-- C5 witness: the amended theorem applied to an unreachable-service
run. -/
theorem backfill_exit_always_zero_probe_aborts_witness :
    (backfillMain ProbeOutcome.raised ⟨[], []⟩ 100 []).exitCode = 0 ∧
    (backfillMain ProbeOutcome.raised ⟨[], []⟩ 100 []).dbOpened = false :=
  ⟨(backfill_exit_always_zero_probe_aborts ProbeOutcome.raised ⟨[], []⟩ 100 []).1,
   ((backfill_exit_always_zero_probe_aborts ProbeOutcome.raised ⟨[], []⟩ 100 []).2 rfl).1⟩

/-- C8: in a run past the pre-flight probe, every candidate is processed
in order and accounted for: an item whose processing raises (embed
failure, wrong dimensionality, or a re-raised insert error) is counted as
exactly one error, every other item as processed, the two counts
partition the candidate list, and which items fail never depends on the
connection state, so no per-item exception aborts the run. -/
theorem backfill_loop_counts_and_continues (s : TxState)
    (items : List (Candidate × ItemEvent)) :
    (runLoop s items).2.1 + (runLoop s items).2.2 = items.length ∧
    (runLoop s items).2.2 = items.countP itemFails ∧
    (runLoop s items).2.1 = items.countP (fun it => !(itemFails it)) := by
  induction items generalizing s with
  | nil => exact ⟨rfl, rfl, rfl⟩
  | cons it rest ih =>
    obtain ⟨c, ev⟩ := it
    rcases hp : processItem s c ev with ⟨s2, b⟩
    have hsnd : itemFails (c, ev) = b := by
      rw [← processItem_snd s c ev, hp]
    obtain ⟨ih1, ih2, ih3⟩ := ih s2
    cases b with
    | true =>
      have hrun : runLoop s ((c, ev) :: rest) =
          ((runLoop s2 rest).1, (runLoop s2 rest).2.1, (runLoop s2 rest).2.2 + 1) := by
        simp only [runLoop, hp]
      refine ⟨?_, ?_, ?_⟩
      · rw [hrun]
        dsimp only
        simp only [List.length_cons]
        omega
      · rw [hrun]
        dsimp only
        simp [List.countP_cons, hsnd, ih2]
      · rw [hrun]
        dsimp only
        simp [List.countP_cons, hsnd, ih3]
    | false =>
      have hrun : runLoop s ((c, ev) :: rest) =
          ((runLoop s2 rest).1, (runLoop s2 rest).2.1 + 1, (runLoop s2 rest).2.2) := by
        simp only [runLoop, hp]
      refine ⟨?_, ?_, ?_⟩
      · rw [hrun]
        dsimp only
        simp only [List.length_cons]
        omega
      · rw [hrun]
        dsimp only
        simp [List.countP_cons, hsnd, ih2]
      · rw [hrun]
        dsimp only
        simp [List.countP_cons, hsnd, ih3]

/-- C2 counterexample: candidate A's shadow-index insert raises a
re-raised `OperationalError` after its relational insert succeeded; the
exception is caught with no rollback, candidate A is counted as an
error, and the next candidate B's `conn.commit()` persists candidate A's
relational write — so a failed candidate's write IS persisted by a later
candidate's commit, contrary to the claim. -/
theorem backfill_failed_item_write_persisted :
    TxWrite.rel candA vec768 ∈
      (runLoop ⟨[], []⟩ [(candA, ItemEvent.embedOk vec768 InsertOutcome.insert2Raise),
                          (candB, ItemEvent.embedOk vec768 InsertOutcome.bothOk)]).1.committed ∧
    (runLoop ⟨[], []⟩ [(candA, ItemEvent.embedOk vec768 InsertOutcome.insert2Raise),
                        (candB, ItemEvent.embedOk vec768 InsertOutcome.bothOk)]).2.2 = 1 := by
  constructor
  · have h : (runLoop ⟨[], []⟩ [(candA, ItemEvent.embedOk vec768 InsertOutcome.insert2Raise),
        (candB, ItemEvent.embedOk vec768 InsertOutcome.bothOk)]).1.committed =
        [TxWrite.rel candA vec768, TxWrite.rel candB vec768, TxWrite.vecIdx candB vec768] := by
      rfl
    rw [h]
    exact List.mem_cons_self _ _
  · rfl

/-- C2 amended: per-item transaction behaviour of the Populator loop.
If processing a candidate succeeds, its two writes are committed (with
whatever was already staged) before the next candidate begins and the
transaction is left empty; if it raises before any write — embed failure,
wrong dimensionality, or failure of the relational insert itself — the
connection state is completely unchanged; but if the shadow-index insert
raises a re-raised error after the relational insert succeeded, that
relational write stays staged in the open transaction (no rollback) and
will be persisted by the next successful candidate's commit; a missing
shadow table is swallowed and the relational write alone is committed. -/
theorem backfill_per_item_tx (s : TxState) (c : Candidate) (vec : EmbVec)
    (h : vec.length = EMBEDDING_DIM) :
    processItem s c (ItemEvent.embedOk vec InsertOutcome.bothOk) =
      (⟨s.committed ++ (s.pending ++ [TxWrite.rel c vec, TxWrite.vecIdx c vec]), []⟩, false) ∧
    processItem s c ItemEvent.embedRaise = (s, true) ∧
    processItem s c (ItemEvent.embedOk vec InsertOutcome.insert1Raise) = (s, true) ∧
    (∀ vec2 : EmbVec, vec2.length ≠ EMBEDDING_DIM → ∀ ins,
      processItem s c (ItemEvent.embedOk vec2 ins) = (s, true)) ∧
    processItem s c (ItemEvent.embedOk vec InsertOutcome.insert2Raise) =
      ({ s with pending := s.pending ++ [TxWrite.rel c vec] }, true) ∧
    processItem s c (ItemEvent.embedOk vec InsertOutcome.noSuchTable) =
      (⟨s.committed ++ (s.pending ++ [TxWrite.rel c vec]), []⟩, false) := by
  have hne : ¬ vec.length ≠ EMBEDDING_DIM := fun hn => hn h
  refine ⟨?_, rfl, ?_, ?_, ?_, ?_⟩
  · simp [processItem, if_neg hne, insert_description_embedding, commitTx]
  · simp [processItem, if_neg hne, insert_description_embedding]
  · intro vec2 h2 ins
    simp [processItem, if_pos h2]
  · simp [processItem, if_neg hne, insert_description_embedding]
  · simp [processItem, if_neg hne, insert_description_embedding, commitTx]

/-- C2 witness: the amended per-item transaction theorem at a concrete
state, candidate and 768-dimensional vector. -/
theorem backfill_per_item_tx_witness :
    vec768.length = EMBEDDING_DIM ∧
    processItem ⟨[], []⟩ candA (ItemEvent.embedOk vec768 InsertOutcome.insert2Raise) =
      (⟨[], [TxWrite.rel candA vec768]⟩, true) := by
  have hlen : vec768.length = EMBEDDING_DIM := by
    simp [vec768, EMBEDDING_DIM, List.length_replicate]
  refine ⟨hlen, ?_⟩
  have h := (backfill_per_item_tx ⟨[], []⟩ candA vec768 hlen).2.2.2.2.1
  simpa using h

/-- The allow-list vetting step always yields a vetted model. -/
theorem vettedChoice_mem (envOverride : Option String) :
    vettedChoice envOverride ∈ VETTED_OLLAMA_MODELS := by
  simp only [vettedChoice]
  by_cases h : VETTED_OLLAMA_MODELS.contains (envOverride.getD DEFAULT_MODEL) = true
  · rw [if_pos h]
    exact List.elem_iff.mp h
  · rw [if_neg h]
    decide

/-- The model (or error) component of `get_vision_model`, with the log
component projected away. -/
theorem get_vision_model_fst (env : Option String) (probe : TagsProbe) :
    (get_vision_model env probe).1 =
      (match probe with
       | TagsProbe.urlError => Except.ok (vettedChoice env)
       | TagsProbe.tags installed =>
         if installed.contains (vettedChoice env) then Except.ok (vettedChoice env)
         else
           match VETTED_OLLAMA_MODELS.find? (fun alt => installed.contains alt) with
           | some alt => Except.ok alt
           | none => Except.error
               ("No vetted vision model installed. Install with: ollama pull " ++
                 DEFAULT_MODEL)) := by
  cases probe with
  | urlError => rfl
  | tags installed =>
    simp only [get_vision_model]
    by_cases hin : installed.contains (vettedChoice env) = true
    · rw [if_pos hin, if_pos hin]
    · rw [if_neg hin, if_neg hin]
      cases hf : VETTED_OLLAMA_MODELS.find? (fun alt => installed.contains alt) with
      | none => rfl
      | some alt => rfl

/-- C9: for every `VISION_MODEL` override and every installed-model
report, the vision model the run uses is a member of the vetted
allow-list; when the tags lookup succeeds, any model returned is also
installed; if no vetted model is installed the run fails with an error
instead of substituting an unapproved model; an unlisted override behaves
exactly like no override (the default is used) and the replacement is
logged; and a substitution for an uninstalled choice is logged with the
substituted model's name. -/
theorem vision_model_always_vetted (envOverride : Option String) (probe : TagsProbe) :
    (∀ m, (get_vision_model envOverride probe).1 = Except.ok m →
      m ∈ VETTED_OLLAMA_MODELS) ∧
    (∀ installed m, probe = TagsProbe.tags installed →
      (get_vision_model envOverride probe).1 = Except.ok m → m ∈ installed) ∧
    (∀ installed, probe = TagsProbe.tags installed →
      (∀ v ∈ VETTED_OLLAMA_MODELS, v ∉ installed) →
      ∃ msg, (get_vision_model envOverride probe).1 = Except.error msg) ∧
    (∀ o, envOverride = some o → o ∉ VETTED_OLLAMA_MODELS →
      (get_vision_model (some o) probe).1 = (get_vision_model none probe).1 ∧
      ("WARNING: " ++ o ++ " not in vetted list. Using " ++ DEFAULT_MODEL) ∈
        (get_vision_model (some o) probe).2) ∧
    (∀ installed m, probe = TagsProbe.tags installed →
      installed.contains (vettedChoice envOverride) = false →
      (get_vision_model envOverride probe).1 = Except.ok m →
      ("Using installed model: " ++ m) ∈ (get_vision_model envOverride probe).2) := by
  refine ⟨?_, ?_, ?_, ?_, ?_⟩
  · intro m h
    rw [get_vision_model_fst] at h
    cases probe with
    | urlError =>
      injection h with h2
      rw [← h2]
      exact vettedChoice_mem envOverride
    | tags installed =>
      dsimp only at h
      by_cases hin : installed.contains (vettedChoice envOverride) = true
      · rw [if_pos hin] at h
        injection h with h2
        rw [← h2]
        exact vettedChoice_mem envOverride
      · rw [if_neg hin] at h
        cases hf : VETTED_OLLAMA_MODELS.find? (fun alt => installed.contains alt) with
        | none =>
          rw [hf] at h
          cases h
        | some alt =>
          rw [hf] at h
          injection h with h2
          rw [← h2]
          exact List.mem_of_find?_eq_some hf
  · rintro installed m rfl h
    rw [get_vision_model_fst] at h
    dsimp only at h
    by_cases hin : installed.contains (vettedChoice envOverride) = true
    · rw [if_pos hin] at h
      injection h with h2
      rw [← h2]
      exact List.elem_iff.mp hin
    · rw [if_neg hin] at h
      cases hf : VETTED_OLLAMA_MODELS.find? (fun alt => installed.contains alt) with
      | none =>
        rw [hf] at h
        cases h
      | some alt =>
        rw [hf] at h
        injection h with h2
        rw [← h2]
        have hc := List.find?_some hf
        exact List.elem_iff.mp hc
  · rintro installed rfl hnone
    rw [get_vision_model_fst]
    dsimp only
    have hin : ¬ installed.contains (vettedChoice envOverride) = true := by
      intro hc
      exact hnone _ (vettedChoice_mem envOverride) (List.elem_iff.mp hc)
    rw [if_neg hin]
    have hf : VETTED_OLLAMA_MODELS.find? (fun alt => installed.contains alt) = none := by
      rw [List.find?_eq_none]
      intro v hv hc
      exact hnone v hv (List.elem_iff.mp hc)
    rw [hf]
    exact ⟨_, rfl⟩
  · rintro o rfl ho
    have hoc : ¬ VETTED_OLLAMA_MODELS.contains o = true := fun hc => ho (List.elem_iff.mp hc)
    have hvc : vettedChoice (some o) = vettedChoice none := by
      rw [vettedChoice, vettedChoice]
      simp only [Option.getD_some, Option.getD_none]
      rw [if_neg hoc]
      by_cases hd : VETTED_OLLAMA_MODELS.contains DEFAULT_MODEL = true
      · rw [if_pos hd]
      · rw [if_neg hd]
    constructor
    · rw [get_vision_model_fst, get_vision_model_fst, hvc]
    · cases probe with
      | urlError =>
        show _ ∈ (if VETTED_OLLAMA_MODELS.contains o then ([] : List String)
          else ["WARNING: " ++ o ++ " not in vetted list. Using " ++ DEFAULT_MODEL]) ++
            ["WARNING: Could not verify Ollama models"]
        rw [if_neg hoc]
        exact List.mem_append_left _ (List.mem_cons_self _ _)
      | tags installed =>
        show _ ∈ (get_vision_model (some o) (TagsProbe.tags installed)).2
        simp only [get_vision_model, Option.getD_some]
        rw [if_neg hoc]
        by_cases hin : installed.contains (vettedChoice (some o)) = true
        · rw [if_pos hin]
          exact List.mem_cons_self _ _
        · rw [if_neg hin]
          cases hf : VETTED_OLLAMA_MODELS.find? (fun alt => installed.contains alt) with
          | none =>
            exact List.mem_append_left _ (List.mem_cons_self _ _)
          | some alt =>
            exact List.mem_append_left _ (List.mem_cons_self _ _)
  · rintro installed m rfl hin h
    rw [get_vision_model_fst] at h
    dsimp only at h
    rw [if_neg (by rw [hin]; exact fun hf => nomatch hf)] at h
    cases hf : VETTED_OLLAMA_MODELS.find? (fun alt => installed.contains alt) with
    | none =>
      rw [hf] at h
      cases h
    | some alt =>
      rw [hf] at h
      injection h with h2
      simp only [get_vision_model]
      rw [if_neg (by rw [hin]; exact fun hf2 => nomatch hf2), hf]
      rw [← h2]
      exact List.mem_append_right _ (List.mem_cons_of_mem _ (List.mem_cons_self _ _))

/-- C9 witness: an unlisted override (`gpt-4o`) with only `llava:13b`
installed resolves to the installed vetted model, and a store of models
with no vetted entry makes the run fail. -/
theorem vision_model_always_vetted_witness :
    (get_vision_model (some "gpt-4o") (TagsProbe.tags ["llava:13b"])).1 =
      Except.ok "llava:13b" ∧
    "llava:13b" ∈ VETTED_OLLAMA_MODELS ∧
    (∃ msg, (get_vision_model none (TagsProbe.tags ["mistral"])).1 = Except.error msg) := by
  have hok : (get_vision_model (some "gpt-4o") (TagsProbe.tags ["llava:13b"])).1 =
      Except.ok "llava:13b" := rfl
  refine ⟨hok, ?_, ?_⟩
  · exact (vision_model_always_vetted (some "gpt-4o")
      (TagsProbe.tags ["llava:13b"])).1 "llava:13b" hok
  · exact (vision_model_always_vetted none
      (TagsProbe.tags ["mistral"])).2.2.1 ["mistral"] rfl (by decide)

/-- C1: after the Index Pruner runs in execute mode, every row address
resolved for deletion is absent (in the final connection view and in the
final durable state) from every one of the nine tables of the shadow
schema; when anything is deleted the whole run performs exactly one
commit; and provided every resolved address starts out present in all
shadow tables or in none, the same holds at every durable state the run
ever exhibits — no durable state shows a resolved address in some
shadow tables but not others. -/
theorem pruner_execute_shadow_consistency
    (msgs : List Message) (metaText : List MetaTextRow) (init : String → List Nat)
    (hinv : ∀ r ∈ resolvedRowids msgs metaText,
      (∀ t ∈ SHADOW_TABLES, r ∈ init t) ∨ (∀ t ∈ SHADOW_TABLES, r ∉ init t)) :
    (∀ r ∈ resolvedRowids msgs metaText, ∀ t ∈ SHADOW_TABLES,
      r ∉ (prunerRun msgs metaText true ⟨init, init⟩).pending t) ∧
    (∀ r ∈ resolvedRowids msgs metaText, ∀ t ∈ SHADOW_TABLES,
      r ∉ (prunerRun msgs metaText true ⟨init, init⟩).committed t) ∧
    (resolvedRowids msgs metaText ≠ ∅ →
      commitCount (prunerOps msgs metaText true) = 1) ∧
    (∀ S ∈ committedStates ⟨init, init⟩ (prunerOps msgs metaText true),
      ∀ r ∈ resolvedRowids msgs metaText,
        (∀ t ∈ SHADOW_TABLES, r ∈ S t) ∨ (∀ t ∈ SHADOW_TABLES, r ∉ S t)) := by
  by_cases hne : resolvedRowids msgs metaText = ∅
  · have hops : prunerOps msgs metaText true = [] := by
      rw [prunerOps]
      simp [hne]
    refine ⟨?_, ?_, ?_, ?_⟩
    · intro r hr
      rw [hne] at hr
      exact absurd hr (Finset.not_mem_empty r)
    · intro r hr
      rw [hne] at hr
      exact absurd hr (Finset.not_mem_empty r)
    · intro hcontra
      exact absurd hne hcontra
    · intro S hS r hr
      rw [hne] at hr
      exact absurd hr (Finset.not_mem_empty r)
  · have hops : prunerOps msgs metaText true =
        (SHADOW_TABLES.map
          (fun t => deleteOpsForTable t ((resolvedRowids msgs metaText).sort (· ≤ ·)))).flatten ++
          [SqlOp.commit] := by
      rw [prunerOps]
      simp [hne]
    have hmemRL : ∀ r ∈ resolvedRowids msgs metaText,
        r ∈ (resolvedRowids msgs metaText).sort (· ≤ ·) :=
      fun r hr => (Finset.mem_sort _).mpr hr
    have hpend : ∀ u x,
        x ∈ (runSqlOps ⟨init, init⟩
          ((SHADOW_TABLES.map
            (fun t => deleteOpsForTable t ((resolvedRowids msgs metaText).sort (· ≤ ·)))).flatten)).pending u ↔
        x ∈ init u ∧ (u ∈ SHADOW_TABLES → x ∉ (resolvedRowids msgs metaText).sort (· ≤ ·)) :=
      fun u x => mem_pending_deletePhase ⟨init, init⟩ SHADOW_TABLES _ u x
    have hfinal : prunerRun msgs metaText true ⟨init, init⟩ =
        applySqlOp (runSqlOps ⟨init, init⟩
          ((SHADOW_TABLES.map
            (fun t => deleteOpsForTable t ((resolvedRowids msgs metaText).sort (· ≤ ·)))).flatten))
          SqlOp.commit := by
      rw [prunerRun, hops, runSqlOps_append]
      rfl
    have habsent : ∀ r ∈ resolvedRowids msgs metaText, ∀ t ∈ SHADOW_TABLES,
        r ∉ (runSqlOps ⟨init, init⟩
          ((SHADOW_TABLES.map
            (fun t => deleteOpsForTable t ((resolvedRowids msgs metaText).sort (· ≤ ·)))).flatten)).pending t := by
      intro r hr t ht hmem
      exact ((hpend t r).mp hmem).2 ht (hmemRL r hr)
    refine ⟨?_, ?_, ?_, ?_⟩
    · intro r hr t ht
      rw [hfinal]
      exact habsent r hr t ht
    · intro r hr t ht
      rw [hfinal]
      exact habsent r hr t ht
    · intro _
      rw [hops, commitCount, List.countP_append]
      have h0 : List.countP isCommitOp
          ((SHADOW_TABLES.map
            (fun t => deleteOpsForTable t ((resolvedRowids msgs metaText).sort (· ≤ ·)))).flatten) = 0 := by
        rw [List.countP_eq_zero]
        intro op hop
        rw [deletePhase_no_commit _ _ op hop]
        exact fun hcontra => nomatch hcontra
      rw [h0]
      rfl
    · intro S hS r hr
      rw [committedStates, hops, committedAfter_append,
        committedAfter_no_commit _ _ (deletePhase_no_commit _ _),
        committedAfter_cons_commit] at hS
      simp only [List.nil_append, committedAfter, List.mem_cons, List.mem_singleton] at hS
      rcases hS with hS | hS | hcontra
      · rw [hS]
        exact hinv r hr
      · rw [hS]
        refine Or.inr (fun t ht => ?_)
        exact habsent r hr t ht
      · exact absurd hcontra (List.not_mem_nil S)

/-- C1 witness: the execute-mode theorem applied to a one-message store
whose embedding occupies row address 7 in every shadow table (a constant
initial table state satisfies the all-or-none hypothesis for any
address). -/
theorem pruner_execute_shadow_consistency_witness :
    (∀ r ∈ resolvedRowids [⟨"b", "user", "x"⟩] [⟨7, "b"⟩],
      (∀ t ∈ SHADOW_TABLES, r ∈ (fun _ => ([7] : List Nat)) t) ∨
      (∀ t ∈ SHADOW_TABLES, r ∉ (fun _ => ([7] : List Nat)) t)) ∧
    (∀ r ∈ resolvedRowids [⟨"b", "user", "x"⟩] [⟨7, "b"⟩], ∀ t ∈ SHADOW_TABLES,
      r ∉ (prunerRun [⟨"b", "user", "x"⟩] [⟨7, "b"⟩] true
        ⟨fun _ => ([7] : List Nat), fun _ => ([7] : List Nat)⟩).committed t) := by
  have hinv : ∀ r ∈ resolvedRowids [⟨"b", "user", "x"⟩] [⟨7, "b"⟩],
      (∀ t ∈ SHADOW_TABLES, r ∈ (fun _ => ([7] : List Nat)) t) ∨
      (∀ t ∈ SHADOW_TABLES, r ∉ (fun _ => ([7] : List Nat)) t) := by
    intro r _
    by_cases h : r ∈ ([7] : List Nat)
    · exact Or.inl (fun t _ => h)
    · exact Or.inr (fun t _ => h)
  exact ⟨hinv,
    (pruner_execute_shadow_consistency [⟨"b", "user", "x"⟩] [⟨7, "b"⟩]
      (fun _ => ([7] : List Nat)) hinv).2.1⟩

/-- C6 witness: the union equality at a concrete one-message store. -/
theorem noise_classifier_union_count_witness :
    junkMessageIds [⟨"b", "user", "x"⟩] =
      unionOfSets (perPatternMatchSets [⟨"b", "user", "x"⟩]) :=
  (noise_classifier_union_count [⟨"b", "user", "x"⟩]).1

/-- C7 witness: lossless batching at a concrete table and identifier
list. -/
theorem batched_resolution_lossless_witness :
    batchedResolveRowids [⟨7, "b"⟩] ["b"] = resolveRowids [⟨7, "b"⟩] ["b"] :=
  (batched_resolution_lossless [⟨7, "b"⟩] ["b"]).1

/-- C3 witness: the dry run leaves a concrete connection state alone. -/
theorem pruner_dry_run_no_op_witness :
    prunerRun [⟨"b", "user", "x"⟩] [⟨7, "b"⟩] false
      ⟨fun _ => ([7] : List Nat), fun _ => ([7] : List Nat)⟩ =
      ⟨fun _ => ([7] : List Nat), fun _ => ([7] : List Nat)⟩ :=
  (pruner_dry_run_no_op [⟨"b", "user", "x"⟩] [⟨7, "b"⟩]
    ⟨fun _ => ([7] : List Nat), fun _ => ([7] : List Nat)⟩).2.1

/-- C10 witness: the check passes with the verbatim model name
installed. -/
theorem preflight_model_check_exact_or_latest_witness :
    modelCheckFails ["nomic-embed-text"] = false :=
  (preflight_model_check_exact_or_latest.1 ["nomic-embed-text"]).mpr (Or.inl (by decide))

/-- C8 witness: the loop counts at a concrete two-item run (one failing
item, one successful item). -/
theorem backfill_loop_counts_and_continues_witness :
    (runLoop ⟨[], []⟩ [(candA, ItemEvent.embedRaise),
      (candB, ItemEvent.embedOk vec768 InsertOutcome.bothOk)]).2.1 +
    (runLoop ⟨[], []⟩ [(candA, ItemEvent.embedRaise),
      (candB, ItemEvent.embedOk vec768 InsertOutcome.bothOk)]).2.2 = 2 :=
  (backfill_loop_counts_and_continues ⟨[], []⟩ [(candA, ItemEvent.embedRaise),
    (candB, ItemEvent.embedOk vec768 InsertOutcome.bothOk)]).1
